import Mathlib

/-!
Shallow embedding of the `dig-network-block` repository core
(`src/dig_l2_definition.rs`, `src/header.rs`, `src/body.rs`,
`src/emission.rs`, `src/emission_config.rs`, `src/block.rs`).

Modelling conventions:
* Bytes are `Nat` values in `0..256`; byte strings are `List Nat`.
* `Hash32` (Rust `[u8; 32]`) is modelled as the `Nat` obtained by reading
  the 32 bytes big-endian.  Byte-wise equality of two 32-byte arrays is
  equality of these numbers, and the lexicographic order used by Rust's
  `sort_unstable` on `[u8; 32]` coincides with `≤` on them.
* `u32`/`u64` values are `Nat`s; wrapping casts are explicit `% 2^32`.
* SHA-256 is implemented concretely (FIPS 180-4) so that roots are
  computable by `decide`/`rfl`.
-/

/-- One 32-bit right rotation (input assumed `< 2^32`). -/
def rotr (n x : Nat) : Nat := (x >>> n) ||| ((x <<< (32 - n)) % 2 ^ 32)

def smallSigma0 (x : Nat) : Nat := rotr 7 x ^^^ rotr 18 x ^^^ (x >>> 3)

def smallSigma1 (x : Nat) : Nat := rotr 17 x ^^^ rotr 19 x ^^^ (x >>> 10)

def bigSigma0 (x : Nat) : Nat := rotr 2 x ^^^ rotr 13 x ^^^ rotr 22 x

def bigSigma1 (x : Nat) : Nat := rotr 6 x ^^^ rotr 11 x ^^^ rotr 25 x

/-- The 64 SHA-256 round constants. -/
def sha256K : List Nat := [1116352408, 1899447441, 3049323471, 3921009573, 961987163, 1508970993, 2453635748, 2870763221, 3624381080, 310598401, 607225278, 1426881987, 1925078388, 2162078206, 2614888103, 3248222580, 3835390401, 4022224774, 264347078, 604807628, 770255983, 1249150122, 1555081692, 1996064986, 2554220882, 2821834349, 2952996808, 3210313671, 3336571891, 3584528711, 113926993, 338241895, 666307205, 773529912, 1294757372, 1396182291, 1695183700, 1986661051, 2177026350, 2456956037, 2730485921, 2820302411, 3259730800, 3345764771, 3516065817, 3600352804, 4094571909, 275423344, 430227734, 506948616, 659060556, 883997877, 958139571, 1322822218, 1537002063, 1747873779, 1955562222, 2024104815, 2227730452, 2361852424, 2428436474, 2756734187, 3204031479, 3329325298]

/-- The SHA-256 initial hash state. -/
def sha256H0 : List Nat := [1779033703, 3144134277, 1013904242, 2773480762, 1359893119, 2600822924, 528734635, 1541459225]

/-- Big-endian byte encoding of `n` on `w` bytes. -/
def beBytes : Nat → Nat → List Nat
  | 0, _ => []
  | w + 1, n => beBytes w (n / 256) ++ [n % 256]

/-- SHA-256 padding: append `0x80`, zeros up to 56 mod 64, then the
64-bit big-endian bit length. -/
def sha256pad (msg : List Nat) : List Nat :=
  msg ++ [128] ++ List.replicate ((119 - msg.length % 64) % 64) 0 ++
    beBytes 8 (8 * msg.length)

/-- Group a byte list into big-endian 32-bit words (length assumed a
multiple of 4). -/
def toWords : List Nat → List Nat
  | a :: b :: c :: d :: rest => (((a * 256 + b) * 256 + c) * 256 + d) :: toWords rest
  | _ => []

/-- Extend a 16-word block to the 64-word message schedule. -/
def extendW (block : List Nat) : List Nat :=
  (List.range 48).foldl
    (fun acc _ =>
      let n := acc.length
      acc ++ [(acc.getD (n - 16) 0 + smallSigma0 (acc.getD (n - 15) 0) +
        acc.getD (n - 7) 0 + smallSigma1 (acc.getD (n - 2) 0)) % 2 ^ 32])
    block

/-- The SHA-256 compression rounds over the given constants/schedule. -/
def sha256rounds : List Nat → List Nat → List Nat → List Nat
  | [], _, st => st
  | _ :: _, [], st => st
  | k :: ks, w :: ws, st =>
    match st with
    | [a, b, c, d, e, f, g, h] =>
      let t1 := (h + bigSigma1 e + ((e &&& f) ^^^ ((e ^^^ (2 ^ 32 - 1)) &&& g)) + k + w) % 2 ^ 32
      let t2 := (bigSigma0 a + ((a &&& b) ^^^ (a &&& c) ^^^ (b &&& c))) % 2 ^ 32
      sha256rounds ks ws [(t1 + t2) % 2 ^ 32, a, b, c, (d + t1) % 2 ^ 32, e, f, g]
    | other => other

/-- Compress one 16-word block into the running state. -/
def sha256block (h : List Nat) (block : List Nat) : List Nat :=
  List.zipWith (fun x y => (x + y) % 2 ^ 32) h (sha256rounds sha256K (extendW block) h)

/-- Process the padded word stream 16 words at a time (`fuel` bounds the
number of iterations; it is always called with fuel ≥ number of blocks). -/
def sha256blocks : Nat → List Nat → List Nat → List Nat
  | 0, _, h => h
  | fuel + 1, ws, h =>
    if ws.isEmpty then h else sha256blocks fuel (ws.drop 16) (sha256block h (ws.take 16))

/-- SHA-256 of a byte list, as the 256-bit big-endian value of the digest. -/
def sha256 (msg : List Nat) : Nat :=
  let ws := toWords (sha256pad msg)
  (sha256blocks ws.length ws sha256H0).foldl (fun acc w => acc * 2 ^ 32 + w) 0

/-- `sha256_concat(parts)`: SHA-256 of the concatenation of the parts. -/
def sha256_concat (parts : List (List Nat)) : Nat := sha256 parts.flatten

/-- Rust `Hash32 = [u8; 32]`, read as a big-endian 256-bit number. -/
abbrev Hash32 := Nat

/-- The 32 bytes of a `Hash32` value. -/
def hash32bytes (h : Hash32) : List Nat := beBytes 32 h

/-- Domain `b"dig:l2:header_field:"`. -/
def HEADER_FIELD_DOMAIN : List Nat := [100, 105, 103, 58, 108, 50, 58, 104, 101, 97, 100, 101, 114, 95, 102, 105, 101, 108, 100, 58]

/-- Domain `b"dig:l2:block_root:"`. -/
def BLOCK_ROOT_DOMAIN : List Nat := [100, 105, 103, 58, 108, 50, 58, 98, 108, 111, 99, 107, 95, 114, 111, 111, 116, 58]

/-- Domain `b"dig:l2:data:"`. -/
def DATA_HASH_DOMAIN : List Nat := [100, 105, 103, 58, 108, 50, 58, 100, 97, 116, 97, 58]

/-- Domain `b"dig:l2:emission:"`. -/
def EMISSION_HASH_DOMAIN : List Nat := [100, 105, 103, 58, 108, 50, 58, 101, 109, 105, 115, 115, 105, 111, 110, 58]

/-- Domain `b"dig:l2:merkle:leaf:"`. -/
def MERKLE_LEAF_DOMAIN : List Nat := [100, 105, 103, 58, 108, 50, 58, 109, 101, 114, 107, 108, 101, 58, 108, 101, 97, 102, 58]

/-- Domain `b"dig:l2:merkle:node:"`. -/
def MERKLE_NODE_DOMAIN : List Nat := [100, 105, 103, 58, 108, 50, 58, 109, 101, 114, 107, 108, 101, 58, 110, 111, 100, 101, 58]

/-- Domain `b"dig:l2:merkle:empty:"`. -/
def MERKLE_EMPTY_DOMAIN : List Nat := [100, 105, 103, 58, 108, 50, 58, 109, 101, 114, 107, 108, 101, 58, 101, 109, 112, 116, 121, 58]

/-- Little-endian 4-byte encoding of a `u32` (`n.to_le_bytes()`). -/
def u32le (n : Nat) : List Nat := [n % 256, n / 256 % 256, n / 2 ^ 16 % 256, n / 2 ^ 24 % 256]

/-- Little-endian 8-byte encoding of a `u64` (`n.to_le_bytes()`). -/
def u64le (n : Nat) : List Nat :=
  [n % 256, n / 256 % 256, n / 2 ^ 16 % 256, n / 2 ^ 24 % 256,
   n / 2 ^ 32 % 256, n / 2 ^ 40 % 256, n / 2 ^ 48 % 256, n / 2 ^ 56 % 256]

/-- `COMPUTE_DATA_HASH`: `SHA256(DATA_HASH_DOMAIN || [data_byte])`. -/
def COMPUTE_DATA_HASH (data_byte : Nat) : Hash32 :=
  sha256_concat [DATA_HASH_DOMAIN, [data_byte]]

/-- `COMPUTE_EMISSION_HASH`: `SHA256(EMISSION_HASH_DOMAIN || pubkey || weight_le)`. -/
def COMPUTE_EMISSION_HASH (pubkey : List Nat) (weight : Nat) : Hash32 :=
  sha256_concat [EMISSION_HASH_DOMAIN, pubkey, u64le weight]

/-- Merkle leaf node: `SHA256(MERKLE_LEAF_DOMAIN || leaf)`. -/
def leafHash (leaf : Hash32) : Hash32 :=
  sha256_concat [MERKLE_LEAF_DOMAIN, hash32bytes leaf]

/-- Merkle internal node: `SHA256(MERKLE_NODE_DOMAIN || left || right)`. -/
def nodeHash (left right : Hash32) : Hash32 :=
  sha256_concat [MERKLE_NODE_DOMAIN, hash32bytes left, hash32bytes right]

/-- `level.chunks(2)` combined pairwise with `nodeHash` (the loop body of
`MERKLE_ROOT`; the input has even length at every use). -/
def combinePairs : List Hash32 → List Hash32
  | a :: b :: rest => nodeHash a b :: combinePairs rest
  | _ => []

/-- The odd-length duplication step of `MERKLE_ROOT`'s loop: if the level
has an odd number of nodes, its last node is pushed again. -/
def dupIfOdd (level : List Hash32) : List Hash32 :=
  if level.length % 2 = 1 then
    match level.getLast? with
    | some last => level ++ [last]
    | none => level
  else level

/-- The `while level.len() > 1` loop of `MERKLE_ROOT`.  `fuel` only bounds
the iteration count; every use supplies `fuel ≥ level.length`, which is
enough since each pass at least halves the level (see `merkleLoopF_fuel`). -/
def merkleLoopF : Nat → List Hash32 → Hash32
  | _, [] => 0
  | _, [x] => x
  | 0, x :: _ :: _ => x
  | fuel + 1, x :: y :: rest => merkleLoopF fuel (combinePairs (dupIfOdd (x :: y :: rest)))

/-- `MERKLE_ROOT`: empty input hashes the empty domain alone; otherwise
leaves become domain-separated leaf nodes and are pairwise combined
(duplicating the last node on odd levels) until one node remains. -/
def MERKLE_ROOT (leaves : List Hash32) : Hash32 :=
  if leaves = [] then sha256 MERKLE_EMPTY_DOMAIN
  else
    let level := leaves.map leafHash
    merkleLoopF level.length level

/-- `COMPUTE_BODY_ROOT`: 2-leaf Merkle root of the two subroots. -/
def COMPUTE_BODY_ROOT (data_root emissions_root : Hash32) : Hash32 :=
  MERKLE_ROOT [data_root, emissions_root]

/-- `COMPUTE_BLOCK_ROOT`: `SHA256(BLOCK_ROOT_DOMAIN || header_root || body_root)`. -/
def COMPUTE_BLOCK_ROOT (header_root body_root : Hash32) : Hash32 :=
  sha256_concat [BLOCK_ROOT_DOMAIN, hash32bytes header_root, hash32bytes body_root]

/-- Errors for definition-level functions (`DefinitionError`). -/
inductive DefinitionError where
  | NoAttestersForNonZeroShare
deriving DecidableEq

/-- `BUILD_CONSENSUS_EMISSIONS`: proposer record first, then one record per
attester carrying `attester_reward_share / attester_count` (truncating
division); errors when the attester share is non-zero with no attesters. -/
def BUILD_CONSENSUS_EMISSIONS (proposer_pubkey : List Nat)
    (attester_pubkeys : List (List Nat))
    (proposer_reward_share attester_reward_share : Nat) :
    Except DefinitionError (List (List Nat × Nat)) :=
  if attester_pubkeys = [] then
    if attester_reward_share > 0 then .error .NoAttestersForNonZeroShare
    else .ok [(proposer_pubkey, proposer_reward_share)]
  else
    let per_attester := attester_reward_share / attester_pubkeys.length
    .ok ((proposer_pubkey, proposer_reward_share) ::
      attester_pubkeys.map fun pk => (pk, per_attester))

/-- Rust `Emission { pubkey: [u8; 48], weight: u64 }`. -/
structure Emission where
  pubkey : List Nat
  weight : Nat
deriving DecidableEq

/-- `Emission::calculate_root`. -/
def Emission.calculate_root (e : Emission) : Hash32 :=
  COMPUTE_EMISSION_HASH e.pubkey e.weight

/-- Rust `L2BlockBody { data: Vec<u8>, emissions: Vec<Emission> }`. -/
structure L2BlockBody where
  data : List Nat
  emissions : List Emission
deriving DecidableEq

/-- `L2BlockBody::calculate_data_root`: per-byte hashes, sorted ascending,
reduced with `MERKLE_ROOT` (`sort_unstable` on `[u8; 32]` is the
lexicographic = numeric order of the hashes). -/
def L2BlockBody.calculate_data_root (b : L2BlockBody) : Hash32 :=
  MERKLE_ROOT (List.insertionSort (· ≤ ·) (b.data.map COMPUTE_DATA_HASH))

/-- `L2BlockBody::calculate_emissions_root`: per-emission hashes, sorted
ascending, reduced with `MERKLE_ROOT`. -/
def L2BlockBody.calculate_emissions_root (b : L2BlockBody) : Hash32 :=
  MERKLE_ROOT (List.insertionSort (· ≤ ·) (b.emissions.map Emission.calculate_root))

/-- `L2BlockBody::calculate_root`. -/
def L2BlockBody.calculate_root (b : L2BlockBody) : Hash32 :=
  COMPUTE_BODY_ROOT b.calculate_data_root b.calculate_emissions_root

/-- Rust `L2BlockHeader`. -/
structure L2BlockHeader where
  version : Nat
  network_id : List Nat
  epoch : Nat
  prev_block_root : Hash32
  body_root : Hash32
  data_count : Nat
  emissions_count : Nat
  proposer_pubkey : List Nat
deriving DecidableEq

/-- `COMPUTE_HEADER_ROOT`: eight field leaves, each
`SHA256(HEADER_FIELD_DOMAIN || field_name || field_bytes)` (integers
little-endian), reduced with `MERKLE_ROOT` in fixed field order. -/
def COMPUTE_HEADER_ROOT (args : L2BlockHeader) : Hash32 :=
  MERKLE_ROOT
    [sha256_concat [HEADER_FIELD_DOMAIN, [118, 101, 114, 115, 105, 111, 110], u32le args.version],
     sha256_concat [HEADER_FIELD_DOMAIN, [110, 101, 116, 119, 111, 114, 107, 95, 105, 100], args.network_id],
     sha256_concat [HEADER_FIELD_DOMAIN, [101, 112, 111, 99, 104], u64le args.epoch],
     sha256_concat [HEADER_FIELD_DOMAIN, [112, 114, 101, 118, 95, 98, 108, 111, 99, 107, 95, 114, 111, 111, 116], hash32bytes args.prev_block_root],
     sha256_concat [HEADER_FIELD_DOMAIN, [98, 111, 100, 121, 95, 114, 111, 111, 116], hash32bytes args.body_root],
     sha256_concat [HEADER_FIELD_DOMAIN, [100, 97, 116, 97, 95, 99, 111, 117, 110, 116], u32le args.data_count],
     sha256_concat [HEADER_FIELD_DOMAIN, [101, 109, 105, 115, 115, 105, 111, 110, 115, 95, 99, 111, 117, 110, 116], u32le args.emissions_count],
     sha256_concat [HEADER_FIELD_DOMAIN, [112, 114, 111, 112, 111, 115, 101, 114, 95, 112, 117, 98, 107, 101, 121], args.proposer_pubkey]]

/-- `L2BlockHeader::calculate_root`. -/
def L2BlockHeader.calculate_root (h : L2BlockHeader) : Hash32 :=
  COMPUTE_HEADER_ROOT h

/-- Header-level validation errors (`HeaderError`). -/
inductive HeaderError where
  | VersionMismatch (expected found : Nat)
  | CountMismatch (field : String) (expected actual : Nat)
deriving DecidableEq

/-- `L2BlockHeader::validate_version`. -/
def L2BlockHeader.validate_version (h : L2BlockHeader) (expected_version : Nat) :
    Except HeaderError Unit :=
  if h.version ≠ expected_version then
    .error (.VersionMismatch expected_version h.version)
  else .ok ()

/-- `L2BlockHeader::validate_counts`: `data_count` is checked first, then
`emissions_count`. -/
def L2BlockHeader.validate_counts (h : L2BlockHeader) (data_len emissions_len : Nat) :
    Except HeaderError Unit :=
  if h.data_count ≠ data_len then
    .error (.CountMismatch "data_count" h.data_count data_len)
  else if h.emissions_count ≠ emissions_len then
    .error (.CountMismatch "emissions_count" h.emissions_count emissions_len)
  else .ok ()

/-- Body-level errors (`BodyError`, currently only a placeholder). -/
inductive BodyError where
  | Generic (msg : String)
deriving DecidableEq

/-- Configuration errors (`EmissionConfigError`). -/
inductive EmissionConfigError where
  | NonZeroAttesterShareWithNoAttesters
deriving DecidableEq

/-- Rust `ConsensusEmissionConfig`. -/
structure ConsensusEmissionConfig where
  proposer_reward_share : Nat
  attester_reward_share : Nat
deriving DecidableEq

/-- `ConsensusEmissionConfig::validate_for_attesters`. -/
def ConsensusEmissionConfig.validate_for_attesters (cfg : ConsensusEmissionConfig)
    (attesters_len : Nat) : Except EmissionConfigError Unit :=
  if attesters_len = 0 ∧ cfg.attester_reward_share > 0 then
    .error .NonZeroAttesterShareWithNoAttesters
  else .ok ()

/-- Block-level errors (`BlockError`), with the transparent wrappers of the
header / body / definitions / config error enums. -/
inductive BlockError where
  | Header (e : HeaderError)
  | Body (e : BodyError)
  | BodyRootMismatch (header_body_root calculated : Hash32)
  | Definitions (e : DefinitionError)
  | Config (e : EmissionConfigError)
deriving DecidableEq

/-- Rust `DigL2Block { header, body }`. -/
structure DigL2Block where
  header : L2BlockHeader
  body : L2BlockBody
deriving DecidableEq

/-- `DigL2Block::calculate_root`. -/
def DigL2Block.calculate_root (b : DigL2Block) : Hash32 :=
  COMPUTE_BLOCK_ROOT b.header.calculate_root b.body.calculate_root

/-- `DigL2Block::new`: optional version check, then the body-root
comparison (reported as `BodyRootMismatch`), then `validate_counts`. -/
def DigL2Block.new (header : L2BlockHeader) (body : L2BlockBody)
    (expected_version : Option Nat) : Except BlockError DigL2Block :=
  match
    match expected_version with
    | some v =>
      match header.validate_version v with
      | .error e => Except.error (BlockError.Header e)
      | .ok _ => Except.ok ()
    | none => Except.ok ()
  with
  | .error e => .error e
  | .ok _ =>
    let calc_body_root := body.calculate_root
    if header.body_root ≠ calc_body_root then
      .error (.BodyRootMismatch header.body_root calc_body_root)
    else
      match header.validate_counts body.data.length body.emissions.length with
      | .error e => .error (.Header e)
      | .ok _ => .ok ⟨header, body⟩

/-- `DigL2Block::build`: validate the config, build consensus emissions,
append the extra emissions, assemble body and header (counts are the Rust
`as u32` casts, i.e. reduced `% 2^32`). -/
def DigL2Block.build (version : Nat) (network_id : List Nat) (epoch : Nat)
    (prev_block_root : Hash32) (proposer_pubkey : List Nat) (data : List Nat)
    (extra_emissions : List Emission) (attester_pubkeys : List (List Nat))
    (cfg : ConsensusEmissionConfig) : Except BlockError DigL2Block :=
  match cfg.validate_for_attesters attester_pubkeys.length with
  | .error e => .error (.Config e)
  | .ok _ =>
    match BUILD_CONSENSUS_EMISSIONS proposer_pubkey attester_pubkeys
        cfg.proposer_reward_share cfg.attester_reward_share with
    | .error e => .error (.Definitions e)
    | .ok tuples =>
      let emissions := tuples.map (fun t => Emission.mk t.1 t.2) ++ extra_emissions
      let body : L2BlockBody := ⟨data, emissions⟩
      let body_root := body.calculate_root
      let header : L2BlockHeader :=
        ⟨version, network_id, epoch, prev_block_root, body_root,
          data.length % 2 ^ 32, emissions.length % 2 ^ 32, proposer_pubkey⟩
      .ok ⟨header, body⟩

deriving instance DecidableEq for Except

/-- Test fixture: an all-zero 32-byte network id. -/
def z32 : List Nat := List.replicate 32 0

/-- Test fixture: a 48-byte proposer key. -/
def pk7 : List Nat := List.replicate 48 7

/-- Test fixture: 48-byte attester keys. -/
def pk1 : List Nat := List.replicate 48 1

def pk2 : List Nat := List.replicate 48 2

def pk3 : List Nat := List.replicate 48 3

theorem combinePairs_length : ∀ l : List Hash32, (combinePairs l).length = l.length / 2
  | [] => by simp [combinePairs]
  | [x] => by simp [combinePairs]
  | a :: b :: rest => by
    simp only [combinePairs, List.length_cons, combinePairs_length rest]
    omega

theorem dupIfOdd_even {l : List Hash32} (h : l.length % 2 = 0) : dupIfOdd l = l := by
  rw [dupIfOdd, if_neg (by omega)]

theorem dupIfOdd_odd {l : List Hash32} {x : Hash32} (hlast : l.getLast? = some x)
    (hodd : l.length % 2 = 1) : dupIfOdd l = l ++ [x] := by
  rw [dupIfOdd, if_pos hodd, hlast]

theorem dupIfOdd_length (l : List Hash32) : (dupIfOdd l).length = l.length + l.length % 2 := by
  rcases h : l.getLast? with _ | x
  · have : l = [] := by simpa using h
    simp [this, dupIfOdd]
  · rcases Nat.mod_two_eq_zero_or_one l.length with he | ho
    · rw [dupIfOdd_even he, he]
      omega
    · rw [dupIfOdd_odd h ho, ho]
      simp

theorem merkleLoopF_step (f : Nat) :
    ∀ l : List Hash32, 2 ≤ l.length →
      merkleLoopF (f + 1) l = merkleLoopF f (combinePairs (dupIfOdd l))
  | _ :: _ :: _, _ => rfl
  | [], h => by simp at h
  | [_], h => by simp at h

theorem merkleLoopF_fuel : ∀ f₁ f₂ : Nat, ∀ l : List Hash32,
    l.length ≤ f₁ → l.length ≤ f₂ → merkleLoopF f₁ l = merkleLoopF f₂ l := by
  intro f₁
  induction f₁ with
  | zero =>
    intro f₂ l h1 _
    have : l = [] := List.eq_nil_of_length_eq_zero (Nat.le_zero.mp h1)
    subst this
    simp [merkleLoopF]
  | succ g ih =>
    intro f₂ l h1 h2
    match l with
    | [] => simp [merkleLoopF]
    | [x] =>
      cases f₂ with
      | zero => simp at h2
      | succ _ => simp [merkleLoopF]
    | a :: b :: rest =>
      have hlen : 2 ≤ (a :: b :: rest).length := by simp
      obtain ⟨g', rfl⟩ : ∃ g', f₂ = g' + 1 := by
        cases f₂ with
        | zero => simp at h2
        | succ k => exact ⟨k, rfl⟩
      rw [merkleLoopF_step g _ hlen, merkleLoopF_step g' _ hlen]
      have hnext : (combinePairs (dupIfOdd (a :: b :: rest))).length <
          (a :: b :: rest).length := by
        rw [combinePairs_length, dupIfOdd_length]
        simp only [List.length_cons]
        omega
      exact ih g' _ (by simp_all; omega) (by simp_all; omega)

/-- Two lists that are permutations of each other sort identically. -/
theorem insertionSortPermEq {l₁ l₂ : List Nat} (h : l₁.Perm l₂) :
    List.insertionSort (· ≤ ·) l₁ = List.insertionSort (· ≤ ·) l₂ :=
  List.eq_of_perm_of_sorted
    ((List.perm_insertionSort _ l₁).trans (h.trans (List.perm_insertionSort _ l₂).symm))
    (List.sorted_insertionSort _ l₁) (List.sorted_insertionSort _ l₂)

/-- When the config passes validation, `build` succeeds and the produced
block has exactly this shape. -/
theorem build_shape (version : Nat) (network_id : List Nat) (epoch : Nat)
    (prev_block_root : Hash32) (pk : List Nat) (data : List Nat)
    (extra : List Emission) (attesters : List (List Nat))
    (cfg : ConsensusEmissionConfig)
    (hcfg : cfg.validate_for_attesters attesters.length = .ok ()) :
    DigL2Block.build version network_id epoch prev_block_root pk data extra attesters cfg =
      .ok ⟨⟨version, network_id, epoch, prev_block_root,
        (L2BlockBody.mk data ((Emission.mk pk cfg.proposer_reward_share ::
          attesters.map fun k =>
            Emission.mk k (cfg.attester_reward_share / attesters.length)) ++ extra)).calculate_root,
        data.length % 2 ^ 32, (1 + attesters.length + extra.length) % 2 ^ 32, pk⟩,
        ⟨data, (Emission.mk pk cfg.proposer_reward_share ::
          attesters.map fun k =>
            Emission.mk k (cfg.attester_reward_share / attesters.length)) ++ extra⟩⟩ := by
  rcases attesters with _ | ⟨a0, arest⟩
  · have hcfg' : cfg.validate_for_attesters 0 = Except.ok () := by simpa using hcfg
    have hshare : cfg.attester_reward_share = 0 := by
      by_contra hs
      simp [ConsensusEmissionConfig.validate_for_attesters] at hcfg'
      omega
    simp [DigL2Block.build, BUILD_CONSENSUS_EMISSIONS, hcfg', hshare, Nat.add_comm]
  · have hcfg' : cfg.validate_for_attesters (arest.length + 1) = Except.ok () := by
      simpa using hcfg
    simp [DigL2Block.build, BUILD_CONSENSUS_EMISSIONS, hcfg', List.map_map,
      Function.comp_def, Nat.add_assoc, Nat.add_comm, Nat.add_left_comm]

/-- `new` succeeds on a header/body pair whose commitments agree. -/
theorem new_of_consistent (header : L2BlockHeader) (body : L2BlockBody)
    (hroot : header.body_root = body.calculate_root)
    (hd : header.data_count = body.data.length)
    (he : header.emissions_count = body.emissions.length) :
    DigL2Block.new header body none = .ok ⟨header, body⟩ := by
  simp [DigL2Block.new, L2BlockHeader.validate_counts, hroot, hd, he]

/-- `new` reports `CountMismatch` on `data_count` when the roots agree but
the declared data count differs from the body's data length. -/
theorem new_count_mismatch (header : L2BlockHeader) (body : L2BlockBody) (c n : Nat)
    (hroot : header.body_root = body.calculate_root)
    (hc : header.data_count = c) (hlen : body.data.length = n) (hd : c ≠ n) :
    DigL2Block.new header body none =
      .error (.Header (.CountMismatch "data_count" c n)) := by
  subst hc
  subst hlen
  simp [DigL2Block.new, L2BlockHeader.validate_counts, hroot, hd]

/-- C5: `MERKLE_ROOT` of the empty leaf list is the fixed constant
`SHA256(MERKLE_EMPTY_DOMAIN)`, and for every single leaf `x` it is the
domain-separated leaf hash `SHA256(MERKLE_LEAF_DOMAIN || x)`, not `x`. -/
theorem C5_merkle_empty_and_single :
    MERKLE_ROOT [] = sha256 MERKLE_EMPTY_DOMAIN ∧
    ∀ x : Hash32, MERKLE_ROOT [x] = sha256 (MERKLE_LEAF_DOMAIN ++ hash32bytes x) := by
  constructor
  · rfl
  · intro x
    simp [MERKLE_ROOT, merkleLoopF, leafHash, sha256_concat]

/-- C3: for a non-empty attester list, `BUILD_CONSENSUS_EMISSIONS` succeeds
and returns exactly the proposer record followed by one record per attester
(in the given order) with weight `attester_share / n` (truncating); the
remainder is assigned to no one. -/
theorem C3_build_consensus_emissions (pk : List Nat) (attesters : List (List Nat))
    (p a : Nat) (h : attesters ≠ []) :
    BUILD_CONSENSUS_EMISSIONS pk attesters p a =
      .ok ((pk, p) :: attesters.map fun k => (k, a / attesters.length)) := by
  simp [BUILD_CONSENSUS_EMISSIONS, h]

/-- C3 witness: the spec's concrete example, shares 12 and 88 over three
attesters: `[(P,12),(A,29),(B,29),(C,29)]`. -/
theorem C3_witness :
    [pk1, pk2, pk3] ≠ ([] : List (List Nat)) ∧
    BUILD_CONSENSUS_EMISSIONS pk7 [pk1, pk2, pk3] 12 88 =
      .ok [(pk7, 12), (pk1, 29), (pk2, 29), (pk3, 29)] := by
  refine ⟨by simp, ?_⟩
  rw [C3_build_consensus_emissions pk7 [pk1, pk2, pk3] 12 88 (by simp)]
  rfl

/-- C10: whenever `ConsensusEmissionConfig::validate_for_attesters` succeeds,
the subsequent `BUILD_CONSENSUS_EMISSIONS` call cannot reach its
`NoAttestersForNonZeroShare` error: it returns the consensus emission list,
so the `Definitions` error branch of `build` is unreachable. -/
theorem C10_validate_guards_build (pk : List Nat) (attesters : List (List Nat)) (p a : Nat)
    (h : (ConsensusEmissionConfig.mk p a).validate_for_attesters attesters.length =
      .ok ()) :
    BUILD_CONSENSUS_EMISSIONS pk attesters p a =
      .ok ((pk, p) :: attesters.map fun k => (k, a / attesters.length)) := by
  rcases attesters with _ | ⟨a0, arest⟩
  · have ha : a = 0 := by
      by_contra hs
      simp [ConsensusEmissionConfig.validate_for_attesters] at h
      omega
    simp [BUILD_CONSENSUS_EMISSIONS, ha]
  · simp [BUILD_CONSENSUS_EMISSIONS]

/-- C10 witness: zero attesters with zero share passes validation and then
`BUILD_CONSENSUS_EMISSIONS` indeed succeeds. -/
theorem C10_witness :
    (ConsensusEmissionConfig.mk 12 0).validate_for_attesters
      ([] : List (List Nat)).length = .ok () ∧
    BUILD_CONSENSUS_EMISSIONS pk7 [] 12 0 = .ok [(pk7, 12)] := by
  refine ⟨rfl, ?_⟩
  rw [C10_validate_guards_build pk7 [] 12 0 rfl]
  rfl

/-- C7 counterexample: `build` with zero attesters and attester share 1
fails with `BlockError::Config(NonZeroAttesterShareWithNoAttesters)`; it
does NOT return the `Definitions`-level `NoAttestersForNonZeroShare` kind
the claim names, because `validate_for_attesters` rejects the input first. -/
theorem C7_counterexample :
    DigL2Block.build 1 z32 0 0 pk7 [] [] [] ⟨12, 1⟩ =
      .error (.Config .NonZeroAttesterShareWithNoAttesters) ∧
    DigL2Block.build 1 z32 0 0 pk7 [] [] [] ⟨12, 1⟩ ≠
      .error (.Definitions .NoAttestersForNonZeroShare) := by
  constructor
  · rfl
  · decide

/-- C7 (amended): `build` with an empty attester list and attester share 0
succeeds with exactly one emission (the proposer record); the same call
with attester share 1 fails with the Config-level
`NonZeroAttesterShareWithNoAttesters` error (non-zero attester share with
zero attesters), the `Definitions` kind being unreachable. -/
theorem C7_zero_attesters (version : Nat) (network_id : List Nat) (epoch : Nat)
    (prev : Hash32) (pk : List Nat) (data : List Nat) (p : Nat) :
    (∃ b, DigL2Block.build version network_id epoch prev pk data [] [] ⟨p, 0⟩ = .ok b ∧
      b.body.emissions = [⟨pk, p⟩]) ∧
    DigL2Block.build version network_id epoch prev pk data [] [] ⟨p, 1⟩ =
      .error (.Config .NonZeroAttesterShareWithNoAttesters) := by
  constructor
  · exact ⟨_, build_shape version network_id epoch prev pk data [] [] ⟨p, 0⟩ rfl, by simp⟩
  · rfl

/-- C2: whenever the header's declared `body_root` differs from the body's
recomputed root, `DigL2Block::new` — with no expected version, or with one
equal to `header.version` — fails with `BodyRootMismatch` carrying the
declared and recomputed roots, regardless of whether the counts also
disagree (`validate_counts` is only reached when the roots are equal). -/
theorem C2_body_root_precedence (header : L2BlockHeader) (body : L2BlockBody)
    (h : header.body_root ≠ body.calculate_root) :
    DigL2Block.new header body none =
      .error (.BodyRootMismatch header.body_root body.calculate_root) ∧
    DigL2Block.new header body (some header.version) =
      .error (.BodyRootMismatch header.body_root body.calculate_root) := by
  constructor <;>
    simp [DigL2Block.new, L2BlockHeader.validate_version, h]

set_option maxRecDepth 1000000 in
/-- C2 witness: a header declaring a zero `body_root` (and wrong counts 5/7)
over an empty body is rejected with `BodyRootMismatch`, not `CountMismatch`. -/
theorem C2_witness :
    (L2BlockHeader.mk 1 z32 0 0 0 5 7 pk7).body_root ≠
      (L2BlockBody.mk [] []).calculate_root ∧
    DigL2Block.new (L2BlockHeader.mk 1 z32 0 0 0 5 7 pk7) (L2BlockBody.mk [] []) none =
      .error (.BodyRootMismatch 0 ((L2BlockBody.mk [] []).calculate_root)) := by
  have hne : (L2BlockHeader.mk 1 z32 0 0 0 5 7 pk7).body_root ≠
      (L2BlockBody.mk [] []).calculate_root := by decide
  exact ⟨hne, (C2_body_root_precedence _ _ hne).1⟩

/-- C9: `build` never fails once the policy check passes, and it sets
`data_count` to `data.len() % 2^32` and `emissions_count` to the emissions
length `% 2^32` (the Rust `as u32` casts): oversized bodies silently wrap
the declared counts instead of producing an error. -/
theorem C9_counts_wrap (version : Nat) (network_id : List Nat) (epoch : Nat)
    (prev_block_root : Hash32) (pk : List Nat) (data : List Nat)
    (extra : List Emission) (attesters : List (List Nat))
    (cfg : ConsensusEmissionConfig)
    (hcfg : cfg.validate_for_attesters attesters.length = .ok ()) :
    DigL2Block.build version network_id epoch prev_block_root pk data extra attesters cfg =
      .ok ⟨⟨version, network_id, epoch, prev_block_root,
        (L2BlockBody.mk data ((Emission.mk pk cfg.proposer_reward_share ::
          attesters.map fun k =>
            Emission.mk k (cfg.attester_reward_share / attesters.length)) ++ extra)).calculate_root,
        data.length % 2 ^ 32, (1 + attesters.length + extra.length) % 2 ^ 32, pk⟩,
        ⟨data, (Emission.mk pk cfg.proposer_reward_share ::
          attesters.map fun k =>
            Emission.mk k (cfg.attester_reward_share / attesters.length)) ++ extra⟩⟩ :=
  build_shape version network_id epoch prev_block_root pk data extra attesters cfg hcfg

/-- C9 witness: a concrete successful `build` whose declared counts are the
(wrapped) body lengths. -/
theorem C9_witness :
    (ConsensusEmissionConfig.mk 12 0).validate_for_attesters
      ([] : List (List Nat)).length = .ok () ∧
    DigL2Block.build 1 z32 5 0 pk7 [1] [] [] ⟨12, 0⟩ =
      .ok ⟨⟨1, z32, 5, 0, (L2BlockBody.mk [1] [Emission.mk pk7 12]).calculate_root,
        1, 1, pk7⟩, ⟨[1], [Emission.mk pk7 12]⟩⟩ := by
  refine ⟨rfl, ?_⟩
  have h := C9_counts_wrap 1 z32 5 0 pk7 [1] [] [] ⟨12, 0⟩ rfl
  simpa using h

/-- C1 (amended): the `build` → `new` round trip succeeds and returns an
equal block, provided the data length and the total emissions count
(1 proposer + attesters + extras) each fit in a `u32`; without that bound
the `as u32` casts wrap the declared counts and `new` rejects the block. -/
theorem C1_round_trip (version : Nat) (network_id : List Nat) (epoch : Nat)
    (prev_block_root : Hash32) (pk : List Nat) (data : List Nat)
    (extra : List Emission) (attesters : List (List Nat))
    (cfg : ConsensusEmissionConfig) (b : DigL2Block)
    (hdata : data.length < 2 ^ 32)
    (hem : 1 + attesters.length + extra.length < 2 ^ 32)
    (hb : DigL2Block.build version network_id epoch prev_block_root pk data
      extra attesters cfg = .ok b) :
    DigL2Block.new b.header b.body none = .ok b := by
  have hcfg : cfg.validate_for_attesters attesters.length = .ok () := by
    rcases h : cfg.validate_for_attesters attesters.length with e | u
    · simp [DigL2Block.build, h] at hb
    · cases u
      rfl
  rw [build_shape version network_id epoch prev_block_root pk data extra attesters cfg
    hcfg] at hb
  obtain rfl : b = _ := (Except.ok.inj hb).symm
  apply new_of_consistent
  · with_reducible rfl
  · exact Nat.mod_eq_of_lt hdata
  · simp only [List.length_append, List.length_cons, List.length_map]
    rw [Nat.mod_eq_of_lt (by omega)]
    omega

/-- C1 witness: a concrete small `build` whose result passes `new` again. -/
theorem C1_witness :
    ([2] : List Nat).length < 2 ^ 32 ∧
    1 + ([] : List (List Nat)).length + ([] : List Emission).length < 2 ^ 32 ∧
    DigL2Block.build 1 z32 0 0 pk7 [2] [] [] ⟨12, 0⟩ =
      .ok ⟨⟨1, z32, 0, 0, (L2BlockBody.mk [2] [Emission.mk pk7 12]).calculate_root,
        1, 1, pk7⟩, ⟨[2], [Emission.mk pk7 12]⟩⟩ ∧
    DigL2Block.new
      (DigL2Block.mk ⟨1, z32, 0, 0,
        (L2BlockBody.mk [2] [Emission.mk pk7 12]).calculate_root, 1, 1, pk7⟩
        ⟨[2], [Emission.mk pk7 12]⟩).header
      (DigL2Block.mk ⟨1, z32, 0, 0,
        (L2BlockBody.mk [2] [Emission.mk pk7 12]).calculate_root, 1, 1, pk7⟩
        ⟨[2], [Emission.mk pk7 12]⟩).body none =
      .ok ⟨⟨1, z32, 0, 0, (L2BlockBody.mk [2] [Emission.mk pk7 12]).calculate_root,
        1, 1, pk7⟩, ⟨[2], [Emission.mk pk7 12]⟩⟩ := by
  refine ⟨by decide, by decide, rfl, ?_⟩
  exact C1_round_trip 1 z32 0 0 pk7 [2] [] [] ⟨12, 0⟩ _ (by decide) (by decide) rfl

/-- C1 counterexample: with `data` of length `2^32` the `as u32` cast wraps
`data_count` to `0`, `build` still succeeds, and feeding the result back to
`new` fails with `CountMismatch` — refuting the unrestricted round trip. -/
theorem C1_counterexample :
    DigL2Block.build 1 z32 0 0 pk7 (List.replicate (2 ^ 32) 2) [] [] ⟨12, 0⟩ =
      .ok ⟨⟨1, z32, 0, 0,
        (L2BlockBody.mk (List.replicate (2 ^ 32) 2) [Emission.mk pk7 12]).calculate_root,
        0, 1, pk7⟩, ⟨List.replicate (2 ^ 32) 2, [Emission.mk pk7 12]⟩⟩ ∧
    DigL2Block.new
      ⟨1, z32, 0, 0,
        (L2BlockBody.mk (List.replicate (2 ^ 32) 2) [Emission.mk pk7 12]).calculate_root,
        0, 1, pk7⟩ ⟨List.replicate (2 ^ 32) 2, [Emission.mk pk7 12]⟩ none =
      .error (.Header (.CountMismatch "data_count" 0 (2 ^ 32))) := by
  constructor
  · have h := build_shape 1 z32 0 0 pk7 (List.replicate (2 ^ 32) 2) [] [] ⟨12, 0⟩ rfl
    have he : (Emission.mk pk7 (ConsensusEmissionConfig.mk 12 0).proposer_reward_share ::
        List.map (fun k => Emission.mk k
          ((ConsensusEmissionConfig.mk 12 0).attester_reward_share /
            List.length ([] : List (List Nat)))) ([] : List (List Nat))) ++
        ([] : List Emission) = [Emission.mk pk7 12] := rfl
    rw [he] at h
    have hc1 : (List.replicate (2 ^ 32) (2 : Nat)).length % 2 ^ 32 = 0 := by
      rw [List.length_replicate]
      exact Nat.mod_self _
    rw [hc1] at h
    have hc2 : (1 + List.length ([] : List (List Nat)) + List.length ([] : List Emission)) %
        2 ^ 32 = 1 := rfl
    rw [hc2] at h
    exact h
  · exact new_count_mismatch _ _ 0 (2 ^ 32) (by with_reducible rfl) (by with_reducible rfl)
      (by simp only [List.length_replicate]) (by decide)

/-- C4: permuting a body's data byte sequence leaves `calculate_data_root`
unchanged, and permuting its emissions sequence leaves
`calculate_emissions_root` unchanged (the leaf hashes are sorted before the
Merkle reduction). -/
theorem C4_permutation_invariance (b1 b2 : L2BlockBody) :
    (b1.data.Perm b2.data → b1.calculate_data_root = b2.calculate_data_root) ∧
    (b1.emissions.Perm b2.emissions →
      b1.calculate_emissions_root = b2.calculate_emissions_root) := by
  constructor
  · intro h
    unfold L2BlockBody.calculate_data_root
    rw [insertionSortPermEq (h.map COMPUTE_DATA_HASH)]
  · intro h
    unfold L2BlockBody.calculate_emissions_root
    rw [insertionSortPermEq (h.map Emission.calculate_root)]

/-- C4 witness: two bodies whose data (resp. emissions) are permutations of
each other have equal data (resp. emissions) roots. -/
theorem C4_witness :
    (L2BlockBody.mk [1, 2] [Emission.mk pk1 5, Emission.mk pk2 6]).calculate_data_root =
      (L2BlockBody.mk [2, 1] [Emission.mk pk2 6, Emission.mk pk1 5]).calculate_data_root ∧
    (L2BlockBody.mk [1, 2] [Emission.mk pk1 5, Emission.mk pk2 6]).calculate_emissions_root =
      (L2BlockBody.mk [2, 1]
        [Emission.mk pk2 6, Emission.mk pk1 5]).calculate_emissions_root :=
  ⟨(C4_permutation_invariance _ _).1 (List.Perm.swap 2 1 []),
   (C4_permutation_invariance _ _).2 (List.Perm.swap (Emission.mk pk2 6) (Emission.mk pk1 5) [])⟩

/-- C8 (amended): for every leaf list of odd length at least 3, appending
the last element once more does not change `MERKLE_ROOT` (the duplicate-last
rule); at odd length 1 the rule never fires and the roots differ. -/
theorem C8_odd_duplication (L : List Hash32) (last : Hash32)
    (hlast : L.getLast? = some last) (hodd : L.length % 2 = 1)
    (h3 : 3 ≤ L.length) :
    MERKLE_ROOT (L ++ [last]) = MERKLE_ROOT L := by
  have hLne : L ≠ [] := by
    rintro rfl
    simp at hlast
  have h1 : MERKLE_ROOT L = merkleLoopF (L.map leafHash).length (L.map leafHash) := by
    rw [MERKLE_ROOT, if_neg hLne]
  have h2 : MERKLE_ROOT (L ++ [last]) =
      merkleLoopF ((L ++ [last]).map leafHash).length ((L ++ [last]).map leafHash) := by
    rw [MERKLE_ROOT, if_neg (by simp)]
  rw [h1, h2]
  have hmap : (L ++ [last]).map leafHash = L.map leafHash ++ [leafHash last] := by
    simp
  have hlen : (L.map leafHash).length = L.length := List.length_map L leafHash
  have hgl : (L.map leafHash).getLast? = some (leafHash last) := by
    rw [List.getLast?_map, hlast]
    rfl
  have hdupL : dupIfOdd (L.map leafHash) = L.map leafHash ++ [leafHash last] :=
    dupIfOdd_odd hgl (by rw [hlen]; exact hodd)
  have hdupL' : dupIfOdd (L.map leafHash ++ [leafHash last]) =
      L.map leafHash ++ [leafHash last] := by
    apply dupIfOdd_even
    simp only [List.length_append, List.length_singleton, hlen]
    omega
  obtain ⟨m, hm⟩ : ∃ m, L.length = m + 3 := ⟨L.length - 3, by omega⟩
  have hlenL' : ((L ++ [last]).map leafHash).length = m + 4 := by
    simp [hm]
  have hstepL' : merkleLoopF (m + 4) ((L ++ [last]).map leafHash) =
      merkleLoopF (m + 3) (combinePairs (dupIfOdd ((L ++ [last]).map leafHash))) :=
    merkleLoopF_step (m + 3) _ (by rw [hlenL']; omega)
  have hstepL : merkleLoopF (m + 3) (L.map leafHash) =
      merkleLoopF (m + 2) (combinePairs (dupIfOdd (L.map leafHash))) :=
    merkleLoopF_step (m + 2) _ (by rw [hlen]; omega)
  rw [hlenL', hlen, hm, hstepL', hstepL, hmap, hdupL', hdupL]
  apply merkleLoopF_fuel
  · rw [combinePairs_length]
    simp only [List.length_append, List.length_singleton, hlen, hm]
    omega
  · rw [combinePairs_length]
    simp only [List.length_append, List.length_singleton, hlen, hm]
    omega

/-- C8 witness: the duplicate-last rule at odd length 3,
`MERKLE_ROOT [1,2,3,3] = MERKLE_ROOT [1,2,3]` for distinct leaf lists. -/
theorem C8_witness :
    ([1, 2, 3] : List Hash32).getLast? = some 3 ∧
    ([1, 2, 3] : List Hash32).length % 2 = 1 ∧
    3 ≤ ([1, 2, 3] : List Hash32).length ∧
    MERKLE_ROOT [1, 2, 3, 3] = MERKLE_ROOT [1, 2, 3] := by
  refine ⟨rfl, rfl, by decide, ?_⟩
  have h := C8_odd_duplication [1, 2, 3] 3 rfl rfl (by decide)
  simpa using h

set_option maxRecDepth 1000000 in
/-- C8 counterexample: the claim fails at odd length 1: duplicating the
single leaf changes the root (`MERKLE_ROOT [0] ≠ MERKLE_ROOT [0, 0]`),
because the loop (and hence the duplication rule) never runs on a
single-node level. -/
theorem C8_counterexample : MERKLE_ROOT [0] ≠ MERKLE_ROOT [0, 0] := by decide
